import Mathlib

/-!
Shallow embedding of the ibicus time-windowed quantile-mapping transform
engine: the QuantileMapping and ECDFM debiasers together with the seasonal
running-window mechanism they share.

Numeric series are embedded as lists of rationals; the injected statistical
model is an abstract fit/cdf/ppf record; fallible construction and
application return Except values mirroring raised Python exceptions.
Helpers that live in the ibicus utils module (not part of the sources at
hand) are modelled from the specification and say so in their doc comments.
-/

/-- The fit-cdf-ppf contract of an injected statistical model (spec section 4.1,
used by both debiasers in the sources): fit produces opaque parameters of some
type P, cdf and ppf are scalar functions of a value and those parameters.
Vectorised numpy calls of the sources become elementwise maps. -/
structure Model (P : Type) where
  fit : List ℚ → P
  cdf : ℚ → P → ℚ
  ppf : ℚ → P → ℚ

/-- Arithmetic mean of a series, embedding numpy mean on a 1-D array. -/
def mean (xs : List ℚ) : ℚ := xs.sum / xs.length

/-- Modelled from the spec: the CDF Threshold Clipper, threshold_cdf_vals of
ibicus.utils (section 4.2; the utils module is not among the sources):
a pure elementwise clamp of a CDF output into [threshold, 1 - threshold]. -/
def threshold_cdf_vals (v t : ℚ) : ℚ := max (min v (1 - t)) t

/-- Configuration bundle of the QuantileMapping debiaser relevant here:
the detrending mode string. -/
structure QMConfig where
  detrending : String
  deriving DecidableEq

/-- The admissible detrending values of the attrs validator in
_quantile_mapping.py (lines 74-76). -/
def qmDetrendingValues : List String := ["additive", "multiplicative", "no_detrending"]

/-- Construction-time validation of QuantileMapping: the attrs in_ validator on
detrending (_quantile_mapping.py lines 74-76) runs eagerly when the object is
built, before any apply_location call. -/
def QuantileMapping.mk_validated (detrending : String) : Except String QMConfig :=
  if detrending ∈ qmDetrendingValues then .ok ⟨detrending⟩
  else .error "detrending needs to be one of additive, multiplicative, no_detrending"

/-- QuantileMapping._standard_qm (_quantile_mapping.py lines 131-132):
transform one value by ppf(cdf(x, fit_cm_hist), fit_obs). -/
def QuantileMapping.standard_qm {P : Type} (m : Model P) (x : ℚ) (fit_cm_hist fit_obs : P) : ℚ :=
  m.ppf (m.cdf x fit_cm_hist) fit_obs

/-- Multiplicative delta of QuantileMapping.apply_location
(_quantile_mapping.py line 143): mean(cm_future) / mean(cm_hist). -/
def deltaMultiplicative (cm_hist cm_future : List ℚ) : ℚ := mean cm_future / mean cm_hist

/-- QuantileMapping.apply_location (_quantile_mapping.py lines 135-150):
fit obs and cm_hist, then branch on the detrending mode; the final else
raises a ValueError, embedded as an error value. -/
def QuantileMapping.apply_location {P : Type} (m : Model P) (cfg : QMConfig)
    (obs cm_hist cm_future : List ℚ) : Except String (List ℚ) :=
  let fit_obs := m.fit obs
  let fit_cm_hist := m.fit cm_hist
  if cfg.detrending = "additive" then
    let delta := mean cm_future - mean cm_hist
    .ok (cm_future.map (fun x => QuantileMapping.standard_qm m (x - delta) fit_cm_hist fit_obs + delta))
  else if cfg.detrending = "multiplicative" then
    let delta := deltaMultiplicative cm_hist cm_future
    .ok (cm_future.map (fun x => QuantileMapping.standard_qm m (x / delta) fit_cm_hist fit_obs * delta))
  else if cfg.detrending = "no_detrending" then
    .ok (cm_future.map (fun x => QuantileMapping.standard_qm m x fit_cm_hist fit_obs))
  else .error "self.detrending has wrong value"

/-- Configuration bundle of the ECDFM debiaser: cdf threshold, running-window
toggle and the two (validated, hence positive) window lengths in days. -/
structure ECDFMConfig where
  cdf_threshold : ℚ
  running_window_mode : Bool
  running_window_length : ℕ
  running_window_step_length : ℕ
  deriving DecidableEq

/-- Construction-time validation of ECDFM (_ecdfm.py lines 145-160): the attrs
validators are instance_of(float) on cdf_threshold (a type check only, no range
check), and instance_of(int) plus gt(0) on running_window_length and
running_window_step_length. Integer inputs arrive as ℤ and are stored as ℕ
once positivity is established. -/
def ECDFM.mk_validated (cdf_threshold : ℚ) (running_window_mode : Bool)
    (running_window_length running_window_step_length : ℤ) : Except String ECDFMConfig :=
  if running_window_length ≤ 0 then .error "running_window_length must be greater than 0"
  else if running_window_step_length ≤ 0 then .error "running_window_step_length must be greater than 0"
  else .ok ⟨cdf_threshold, running_window_mode,
            running_window_length.toNat, running_window_step_length.toNat⟩

/-- ECDFM._apply_on_within_year_window (_ecdfm.py lines 216-229): fit the model
independently to obs, cm_hist and cm_future, threshold the cdf of cm_future
under its own fit, and return cm_future + ppf(q, fit_obs) - ppf(q, fit_cm_hist)
elementwise. -/
def ECDFM.apply_on_within_year_window {P : Type} (m : Model P) (cdf_threshold : ℚ)
    (obs cm_hist cm_future : List ℚ) : List ℚ :=
  let fit_obs := m.fit obs
  let fit_cm_hist := m.fit cm_hist
  let fit_cm_future := m.fit cm_future
  cm_future.map (fun x =>
    let quantile_cm_future := threshold_cdf_vals (m.cdf x fit_cm_future) cdf_threshold
    x + m.ppf quantile_cm_future fit_obs - m.ppf quantile_cm_future fit_cm_hist)

/-- Modelled from the spec: circular (mod 366) distance between day-of-year
labels on the 1..366 calendar (section 4.3, window membership). -/
def circDist (a b : ℕ) : ℕ := min ((a + 366 - b) % 366) ((b + 366 - a) % 366)

/-- Modelled from the spec: day 366 (the leap day) is never itself a window
center and is absorbed by its neighboring window (section 4.3); for membership
computations it is treated as day 365. -/
def effDay (d : ℕ) : ℕ := if d = 366 then 365 else d

/-- Modelled from the spec: number of window centers for a given step length,
ceil(366/step) when step does not evenly divide 366, else 366/step
(section 4.3, window centers). -/
def numWindowCenters (s : ℕ) : ℕ := if 366 % s = 0 then 366 / s else 366 / s + 1

/-- Modelled from the spec: the k-th window center, anchors evenly spaced by
the step length starting at day 1; a nominal center at 366 is replaced by 365
because day 366 is never a center (section 4.3). -/
def windowCenter (s k : ℕ) : ℕ := if 1 + k * s = 366 then 365 else 1 + k * s

/-- Modelled from the spec: the list of all window centers across the 1..366
calendar (section 4.3). -/
def windowCenters (s : ℕ) : List ℕ := (List.range (numWindowCenters s)).map (windowCenter s)

/-- Modelled from the spec: RunningWindowOverDaysOfYear.get_indices_vals_in_window
of ibicus.utils (not among the sources): the indices of samples whose
day-of-year label lies within circular distance floor(len/2) of the window
center (section 4.3, membership). -/
def getIndicesValsInWindow (days : List ℕ) (len c : ℕ) : List ℕ :=
  (List.range days.length).filter (fun i => decide (circDist (effDay (days.getD i 0)) c ≤ len / 2))

/-- Modelled from the spec: the iteration core of RunningWindowOverDaysOfYear.use.
For each remaining window center, the target index set is the step-length-wide
window around the center minus the indices already assigned to an earlier
target window (the uniqueness mask of section 4.3: each global index is
assigned to exactly one target window). -/
def RunningWindow.useAux (days : List ℕ) (s : ℕ) : List ℕ → List ℕ → List (ℕ × List ℕ)
  | [], _ => []
  | c :: cs, used =>
      let tgt := (getIndicesValsInWindow days s c).filter (fun i => decide (i ∉ used))
      (c, tgt) :: RunningWindow.useAux days s cs (used ++ tgt)

/-- Modelled from the spec: RunningWindowOverDaysOfYear.use of ibicus.utils
(not among the sources): yields (window_center, target index set) pairs over
all window centers, deduplicated so that no index occurs in two target sets
(section 4.3, donor vs target sets and deduplication). -/
def RunningWindow.use (days : List ℕ) (s : ℕ) : List (ℕ × List ℕ) :=
  RunningWindow.useAux days s (windowCenters s) []

/-- Gather xs at a list of indices: the fancy indexing xs[idx] of numpy. -/
def gatherAt (xs : List ℚ) (idx : List ℕ) : List ℚ := idx.map (fun i => xs.getD i 0)

/-- Scatter vals into out at positions idxs: the fancy-index assignment
out[idxs] = vals of numpy, index by index. -/
def scatterWrite : List ℚ → List ℕ → List ℚ → List ℚ
  | out, [], _ => out
  | out, _ :: _, [] => out
  | out, i :: is, v :: vs => scatterWrite (out.set i v) is vs

/-- The selection mask of _ecdfm.py lines 293-298: walk the donor index list
paired with its computed values, keep a value when its index lies in the
target set and it is the first occurrence of that index in the donor list
(logical_and of in1d with get_mask_for_unique_subarray; the latter is a
first-occurrence mask, modelled from the spec since the utils module is not
among the sources). -/
def selectVals : List (ℕ × ℚ) → List ℕ → List ℕ → List ℚ
  | [], _, _ => []
  | (i, v) :: rest, tgt, seen =>
      if i ∈ tgt ∧ i ∉ seen then v :: selectVals rest tgt (i :: seen)
      else selectVals rest tgt (i :: seen)

/-- A time annotation: per-sample (year, day-of-year) labels. The year and
day_of_year helpers of ibicus.utils are the two projections. -/
abbrev TimeArr := List (ℕ × ℕ)

/-- Day-of-year labels of a time array (day_of_year of ibicus.utils). -/
def day_of_year (t : TimeArr) : List ℕ := t.map Prod.snd

/-- Modelled from the spec: infer_and_create_time_arrays_if_not_given of
ibicus.utils (not among the sources): when a time array is missing it is
inferred assuming the series starts on a January 1st, counting days forward
(sections 4.5 and 7; the year length used for wrapping is 365 as the spec
fixes no leap rule for inference). -/
def inferTimeArr (n : ℕ) : TimeArr := (List.range n).map (fun i => (i / 365, i % 365 + 1))

/-- The running-window branch of ECDFM.apply_location (_ecdfm.py lines 261-300):
start from an output array shaped like cm_future, and for every
(window_center, target indices) pair of the running window keyed off
the calendar of cm_future, gather the three donor subsets, run the within-year
core on them, and scatter the masked values into the target indices. -/
def ECDFM.applyRunningWindow {P : Type} (m : Model P) (cfg : ECDFMConfig)
    (obs cm_hist cm_future : List ℚ) (dObs dCmHist dCmFuture : List ℕ) : List ℚ :=
  (RunningWindow.use dCmFuture cfg.running_window_step_length).foldl
    (fun debiased wt =>
      let indices_window_obs := getIndicesValsInWindow dObs cfg.running_window_length wt.1
      let indices_window_cm_hist := getIndicesValsInWindow dCmHist cfg.running_window_length wt.1
      let indices_window_cm_future := getIndicesValsInWindow dCmFuture cfg.running_window_length wt.1
      let core := ECDFM.apply_on_within_year_window m cfg.cdf_threshold
        (gatherAt obs indices_window_obs)
        (gatherAt cm_hist indices_window_cm_hist)
        (gatherAt cm_future indices_window_cm_future)
      scatterWrite debiased wt.2 (selectVals (indices_window_cm_future.zip core) wt.2 []))
    (List.replicate cm_future.length 0)

/-- ECDFM.apply_location (_ecdfm.py lines 231-302). In running-window mode:
missing time arrays trigger a non-fatal warning (the Bool of the result) and
are inferred assuming a January-1 start; a length mismatch between a series
and its time array is a hard validation error
(check_time_information_and_raise_error); otherwise the running-window
iteration fills the output. When running_window_mode is off, the within-year
core is applied once to the full series and the time arguments are not
touched at all. -/
def ECDFM.apply_location {P : Type} (m : Model P) (cfg : ECDFMConfig)
    (obs cm_hist cm_future : List ℚ)
    (time_obs time_cm_hist time_cm_future : Option TimeArr) :
    Except String (List ℚ × Bool) :=
  if cfg.running_window_mode then
    let warned := time_obs.isNone || time_cm_hist.isNone || time_cm_future.isNone
    let tObs := time_obs.getD (inferTimeArr obs.length)
    let tCmHist := time_cm_hist.getD (inferTimeArr cm_hist.length)
    let tCmFuture := time_cm_future.getD (inferTimeArr cm_future.length)
    if obs.length ≠ tObs.length ∨ cm_hist.length ≠ tCmHist.length ∨
        cm_future.length ≠ tCmFuture.length then
      .error "time information does not have the same length as the data"
    else
      .ok (ECDFM.applyRunningWindow m cfg obs cm_hist cm_future
            (day_of_year tObs) (day_of_year tCmHist) (day_of_year tCmFuture), warned)
  else
    .ok (ECDFM.apply_on_within_year_window m cfg.cdf_threshold obs cm_hist cm_future, false)

/-- Whether an Except value is an error, used to state eager raising of
configuration errors without an existential. -/
def isError {α : Type} : Except String α → Bool
  | .error _ => true
  | .ok _ => false

/-- A concrete deterministic model for instantiations: fit is trivial, cdf is
the identity in the value and ppf the identity in the quantile, so ppf inverts
cdf exactly. -/
def unitModel : Model Unit where
  fit := fun _ => ()
  cdf := fun x _ => x
  ppf := fun q _ => q

/-- The model unitModel satisfies the inversion contract: its ppf inverts its
cdf at every value and parameter. -/
theorem unitModel_ppf_inverts_cdf (x : ℚ) (p : Unit) :
    unitModel.ppf (unitModel.cdf x p) p = x := rfl

/-- C1: for every ECDFM configuration and numeric donor series, the per-window
core returns, at each position, cm_future plus ppf(q, params_obs) minus
ppf(q, params_hist), where the three parameter sets come from independent fit
calls on obs, cm_hist and cm_future, and q is the cdf of cm_future under
params_future clamped elementwise into [cdf_threshold, 1 - cdf_threshold]. -/
theorem ecdfm_window_core_formula {P : Type} (m : Model P) (t : ℚ)
    (obs cm_hist cm_future : List ℚ) (i : ℕ) (x : ℚ)
    (hx : cm_future[i]? = some x) :
    (ECDFM.apply_on_within_year_window m t obs cm_hist cm_future)[i]? =
      some (x + m.ppf (max (min (m.cdf x (m.fit cm_future)) (1 - t)) t) (m.fit obs)
              - m.ppf (max (min (m.cdf x (m.fit cm_future)) (1 - t)) t) (m.fit cm_hist)) := by
  simp [ECDFM.apply_on_within_year_window, List.getElem?_map, hx, threshold_cdf_vals]

/-- Witness for C1 at a concrete input. -/
theorem ecdfm_window_core_formula_witness :
    (ECDFM.apply_on_within_year_window unitModel (1/4) [0] [1] [2])[0]? =
      some (2 + unitModel.ppf (max (min (unitModel.cdf 2 (unitModel.fit [2])) (1 - 1/4)) (1/4)) (unitModel.fit [0])
              - unitModel.ppf (max (min (unitModel.cdf 2 (unitModel.fit [2])) (1 - 1/4)) (1/4)) (unitModel.fit [1])) :=
  ecdfm_window_core_formula unitModel (1/4) [0] [1] [2] 0 2 rfl

/-- C3: with additive detrending, apply_location returns the standard quantile
mapping of cm_future shifted down by delta = mean(cm_future) - mean(cm_hist)
and shifted back up by delta afterwards. -/
theorem qm_additive_formula {P : Type} (m : Model P) (cfg : QMConfig)
    (hcfg : cfg.detrending = "additive") (obs cm_hist cm_future : List ℚ) :
    QuantileMapping.apply_location m cfg obs cm_hist cm_future =
      .ok (cm_future.map (fun x =>
        m.ppf (m.cdf (x - (mean cm_future - mean cm_hist)) (m.fit cm_hist)) (m.fit obs)
          + (mean cm_future - mean cm_hist))) := by
  simp [QuantileMapping.apply_location, hcfg, QuantileMapping.standard_qm]

/-- Witness for C3 at a concrete input. -/
theorem qm_additive_formula_witness :
    QuantileMapping.apply_location unitModel ⟨"additive"⟩ [0] [1] [2, 3] =
      .ok ([2, 3].map (fun x =>
        unitModel.ppf (unitModel.cdf (x - (mean [2, 3] - mean [1])) (unitModel.fit [1])) (unitModel.fit [0])
          + (mean [2, 3] - mean [1]))) :=
  qm_additive_formula unitModel ⟨"additive"⟩ rfl [0] [1] [2, 3]

/-- C4: with multiplicative detrending and mean(cm_hist) nonzero,
apply_location returns the standard quantile mapping of cm_future divided by
delta = mean(cm_future) / mean(cm_hist), multiplied back by delta. -/
theorem qm_multiplicative_formula {P : Type} (m : Model P) (cfg : QMConfig)
    (hcfg : cfg.detrending = "multiplicative") (obs cm_hist cm_future : List ℚ)
    (hh : mean cm_hist ≠ 0) :
    QuantileMapping.apply_location m cfg obs cm_hist cm_future =
      .ok (cm_future.map (fun x =>
        m.ppf (m.cdf (x / (mean cm_future / mean cm_hist)) (m.fit cm_hist)) (m.fit obs)
          * (mean cm_future / mean cm_hist))) := by
  simp [QuantileMapping.apply_location, hcfg, QuantileMapping.standard_qm, deltaMultiplicative]

/-- Witness for C4 at a concrete input. -/
theorem qm_multiplicative_formula_witness :
    QuantileMapping.apply_location unitModel ⟨"multiplicative"⟩ [0] [1] [2, 3] =
      .ok ([2, 3].map (fun x =>
        unitModel.ppf (unitModel.cdf (x / (mean [2, 3] / mean [1])) (unitModel.fit [1])) (unitModel.fit [0])
          * (mean [2, 3] / mean [1]))) :=
  qm_multiplicative_formula unitModel ⟨"multiplicative"⟩ rfl [0] [1] [2, 3] (by norm_num [mean])

/-- C7: an invalid detrending value and a non-positive running window length
or step length are configuration errors raised eagerly at construction. -/
theorem constructor_validation_eager (d : String) (hd : d ∉ qmDetrendingValues)
    (t : ℚ) (b : Bool) (L S : ℤ) (hLS : L ≤ 0 ∨ S ≤ 0) :
    isError (QuantileMapping.mk_validated d) = true ∧
    isError (ECDFM.mk_validated t b L S) = true := by
  constructor
  · simp [QuantileMapping.mk_validated, hd, isError]
  · by_cases hL : L ≤ 0
    · simp [ECDFM.mk_validated, hL, isError]
    · have hS : S ≤ 0 := by tauto
      simp [ECDFM.mk_validated, hL, hS, isError]

/-- Witness for C7 at a concrete input. -/
theorem constructor_validation_eager_witness :
    isError (QuantileMapping.mk_validated "bogus") = true ∧
    isError (ECDFM.mk_validated (1/10) true 0 31) = true :=
  constructor_validation_eager "bogus" (by decide) (1/10) true 0 31 (by omega)

/-- C8 counterexample: constructing an ECDFM configuration with the
out-of-range float cdf_threshold 0.7 succeeds; no error is raised at
construction, contradicting the claim that cdf_threshold is constrained to
the open interval (0, 0.5). -/
theorem ecdfm_cdf_threshold_unchecked_counterexample :
    ECDFM.mk_validated (7/10) true 31 31 = .ok ⟨7/10, true, 31, 31⟩ := by
  unfold ECDFM.mk_validated
  norm_num
  rfl

/-- C8 amended: cdf_threshold is only validated to be a float at construction;
any value, also one outside (0, 0.5), is accepted whenever the two window
lengths are positive. -/
theorem ecdfm_cdf_threshold_only_type_checked (t : ℚ) (b : Bool) (L S : ℤ)
    (hL : 0 < L) (hS : 0 < S) :
    ECDFM.mk_validated t b L S = .ok ⟨t, b, L.toNat, S.toNat⟩ := by
  unfold ECDFM.mk_validated
  rw [if_neg (by omega), if_neg (by omega)]

/-- Witness for the amended C8 at a concrete input. -/
theorem ecdfm_cdf_threshold_only_type_checked_witness :
    ECDFM.mk_validated (-1/10) false 31 1 = .ok ⟨-1/10, false, (31 : ℤ).toNat, (1 : ℤ).toNat⟩ :=
  ecdfm_cdf_threshold_only_type_checked (-1/10) false 31 1 (by omega) (by omega)

/-- C9: given mean(cm_hist) nonzero, the divisor delta of the multiplicative
branch of QuantileMapping.apply_location is zero exactly when mean(cm_future)
is zero: the branch then divides cm_future by zero even though the stated
precondition mean(cm_hist) different from 0 holds, so well-definedness needs
both means nonzero, equivalently delta nonzero. -/
theorem qm_multiplicative_delta_zero_iff (cm_hist cm_future : List ℚ)
    (hh : mean cm_hist ≠ 0) :
    deltaMultiplicative cm_hist cm_future = 0 ↔ mean cm_future = 0 := by
  unfold deltaMultiplicative
  rw [div_eq_zero_iff]
  simp [hh]

/-- Witness for C9 at a concrete input. -/
theorem qm_multiplicative_delta_zero_iff_witness :
    (deltaMultiplicative [1] [0] = 0 ↔ mean [0] = 0) :=
  qm_multiplicative_delta_zero_iff [1] [0] (by norm_num [mean])

/-- C10: when running_window_mode is off, ECDFM.apply_location ignores the
time arguments entirely: the result equals the within-year core applied to
the full series, with no warning and no validation, and is identical for any
two choices of the time arguments. -/
theorem ecdfm_no_window_ignores_time {P : Type} (m : Model P) (cfg : ECDFMConfig)
    (hmode : cfg.running_window_mode = false)
    (obs cm_hist cm_future : List ℚ) (t1 t2 t3 u1 u2 u3 : Option TimeArr) :
    ECDFM.apply_location m cfg obs cm_hist cm_future t1 t2 t3 =
      .ok (ECDFM.apply_on_within_year_window m cfg.cdf_threshold obs cm_hist cm_future, false) ∧
    ECDFM.apply_location m cfg obs cm_hist cm_future t1 t2 t3 =
      ECDFM.apply_location m cfg obs cm_hist cm_future u1 u2 u3 := by
  constructor <;> simp [ECDFM.apply_location, hmode]

/-- Witness for C10 at a concrete input: the first time array even has the
wrong length for obs, and the second choice omits all time arrays. -/
theorem ecdfm_no_window_ignores_time_witness :
    ECDFM.apply_location unitModel ⟨1/4, false, 31, 31⟩ [0] [1] [2]
        (some [(0, 1), (0, 2)]) (some [(0, 1)]) (some [(0, 1)]) =
      .ok (ECDFM.apply_on_within_year_window unitModel (ECDFMConfig.mk (1/4) false 31 31).cdf_threshold [0] [1] [2], false) ∧
    ECDFM.apply_location unitModel ⟨1/4, false, 31, 31⟩ [0] [1] [2]
        (some [(0, 1), (0, 2)]) (some [(0, 1)]) (some [(0, 1)]) =
      ECDFM.apply_location unitModel ⟨1/4, false, 31, 31⟩ [0] [1] [2] none none none :=
  ecdfm_no_window_ignores_time unitModel ⟨1/4, false, 31, 31⟩ rfl [0] [1] [2]
    (some [(0, 1), (0, 2)]) (some [(0, 1)]) (some [(0, 1)]) none none none

/-- C5 counterexample: unitModel is a deterministic model whose ppf inverts
its cdf (see unitModel_ppf_inverts_cdf), yet with cm_hist equal to cm_future
equal to [0] and cdf_threshold 1/4 the ECDFM core does not return the direct
quantile mapping ppf(q, params_obs) of cm_future onto obs: the clamp moves q
away from the cdf value, so the cm_future and ppf(q, params_hist) terms do
not cancel. -/
theorem ecdfm_selfmap_counterexample :
    unitModel.ppf (unitModel.cdf 0 (unitModel.fit [0])) (unitModel.fit [0]) = 0 ∧
    ECDFM.apply_on_within_year_window unitModel (1/4) [0] [0] [0] ≠
      [unitModel.ppf (threshold_cdf_vals (unitModel.cdf 0 (unitModel.fit [0])) (1/4))
        (unitModel.fit [0])] := by
  constructor
  · rfl
  · intro h
    have h0 : ECDFM.apply_on_within_year_window unitModel (1/4) [0] [0] [0] = [0] := by
      unfold ECDFM.apply_on_within_year_window threshold_cdf_vals unitModel
      norm_num
    rw [h0] at h
    have h1 : unitModel.ppf (threshold_cdf_vals (unitModel.cdf 0 (unitModel.fit [0])) (1/4))
        (unitModel.fit [0]) = 1/4 := by
      unfold threshold_cdf_vals unitModel
      norm_num
    rw [h1] at h
    simp at h

/-- C5 amended: for a deterministic model whose ppf inverts its cdf on the
values of cm_future, and provided that the cdf values of cm_future under its
own fit lie inside [cdf_threshold, 1 - cdf_threshold] so that the clamp is
inactive, ECDFM with cm_hist equal to cm_future returns exactly the direct
quantile mapping of cm_future onto obs, ppf(q, params_obs) with q the clipped
cdf of cm_future under its own fit. -/
theorem ecdfm_selfmap_reduces_to_direct_qm {P : Type} (m : Model P) (t : ℚ)
    (obs cm_future : List ℚ)
    (hinv : ∀ x ∈ cm_future, m.ppf (m.cdf x (m.fit cm_future)) (m.fit cm_future) = x)
    (hclip : ∀ x ∈ cm_future,
      t ≤ m.cdf x (m.fit cm_future) ∧ m.cdf x (m.fit cm_future) ≤ 1 - t) :
    ECDFM.apply_on_within_year_window m t obs cm_future cm_future =
      cm_future.map (fun x =>
        m.ppf (threshold_cdf_vals (m.cdf x (m.fit cm_future)) t) (m.fit obs)) := by
  unfold ECDFM.apply_on_within_year_window
  apply List.map_congr_left
  intro x hx
  have hq : threshold_cdf_vals (m.cdf x (m.fit cm_future)) t = m.cdf x (m.fit cm_future) := by
    unfold threshold_cdf_vals
    rw [min_eq_left (hclip x hx).2, max_eq_left (hclip x hx).1]
  simp only [hq, hinv x hx]
  ring

/-- Witness for the amended C5 at a concrete input. -/
theorem ecdfm_selfmap_reduces_to_direct_qm_witness :
    ECDFM.apply_on_within_year_window unitModel (1/4) [0] [1/2] [1/2] =
      [(1/2 : ℚ)].map (fun x =>
        unitModel.ppf (threshold_cdf_vals (unitModel.cdf x (unitModel.fit [1/2])) (1/4))
          (unitModel.fit [0])) :=
  ecdfm_selfmap_reduces_to_direct_qm unitModel (1/4) [0] [1/2]
    (fun x _ => rfl)
    (by intro x hx; rw [List.mem_singleton] at hx; subst hx; constructor <;> norm_num [unitModel])

/-- Rotating by a full year does not change a remainder below 366. -/
theorem add_rot_mod_eq (a b : ℕ) (hba : b ≤ a) (hlt : a - b < 366) :
    (a + 366 - b) % 366 = a - b := by
  have h1 : a + 366 - b = (a - b) + 366 := by omega
  rw [h1, Nat.add_mod_right, Nat.mod_eq_of_lt hlt]

/-- Bounding the circular distance through the forward arc. -/
theorem circDist_le_of_le (a b h : ℕ) (hba : b ≤ a) (hab : a - b ≤ h) (hlt : a - b < 366) :
    circDist a b ≤ h := by
  unfold circDist
  calc min ((a + 366 - b) % 366) ((b + 366 - a) % 366) ≤ (a + 366 - b) % 366 :=
        min_le_left _ _
    _ = a - b := add_rot_mod_eq a b hba hlt
    _ ≤ h := hab

/-- Bounding the circular distance through the backward arc. -/
theorem circDist_le_of_ge (a b h : ℕ) (hab : a ≤ b) (hba : b - a ≤ h) (hlt : b - a < 366) :
    circDist a b ≤ h := by
  unfold circDist
  calc min ((a + 366 - b) % 366) ((b + 366 - a) % 366) ≤ (b + 366 - a) % 366 :=
        min_le_right _ _
    _ = b - a := add_rot_mod_eq b a hab hlt
    _ ≤ h := hba

/-- Bounding the circular distance through the wrap-around arc. -/
theorem circDist_le_wrap (a b h : ℕ) (hba : b ≤ a) (hle : b + 366 - a ≤ h)
    (hlt : b + 366 - a < 366) : circDist a b ≤ h := by
  unfold circDist
  calc min ((a + 366 - b) % 366) ((b + 366 - a) % 366) ≤ (b + 366 - a) % 366 :=
        min_le_right _ _
    _ = b + 366 - a := Nat.mod_eq_of_lt hlt
    _ ≤ h := hle

/-- The window centers times the step length reach past day 366. -/
theorem numWindowCenters_mul_ge (s : ℕ) (hs : 1 ≤ s) : 366 ≤ s * numWindowCenters s := by
  unfold numWindowCenters
  split
  case isTrue h =>
    rw [Nat.mul_div_cancel' (Nat.dvd_of_mod_eq_zero h)]
  case isFalse h =>
    have h1 := Nat.div_add_mod 366 s
    have h2 : 366 % s < s := Nat.mod_lt _ hs
    have h3 : s * (366 / s + 1) = s * (366 / s) + s := Nat.mul_succ s (366 / s)
    omega

/-- All window centers but the notional last one start before day 366. -/
theorem numWindowCenters_pred_mul_lt (s : ℕ) (hs : 1 ≤ s) :
    s * (numWindowCenters s - 1) < 366 := by
  unfold numWindowCenters
  split
  case isTrue h =>
    have hdvd : s ∣ 366 := Nat.dvd_of_mod_eq_zero h
    have hle : s ≤ 366 := Nat.le_of_dvd (by norm_num) hdvd
    have h1 : 1 ≤ 366 / s := Nat.one_le_div_iff hs |>.mpr hle
    have h2 : s * (366 / s) = 366 := Nat.mul_div_cancel' hdvd
    have h3 : s * (366 / s - 1) + s = s * (366 / s) := by
      have h4 : 366 / s - 1 + 1 = 366 / s := by omega
      calc s * (366 / s - 1) + s = s * (366 / s - 1 + 1) := (Nat.mul_succ s _).symm
        _ = s * (366 / s) := by rw [h4]
    omega
  case isFalse h =>
    have h1 := Nat.div_add_mod 366 s
    have h2 : 366 % s < s := Nat.mod_lt _ hs
    simp only [Nat.add_sub_cancel]
    omega

/-- Every effective day of the circular 1..366 calendar lies within half a
step length of some window center: the step-wide target windows around the
centers cover the whole year. -/
theorem exists_center_near (s : ℕ) (hs : 1 ≤ s) (d : ℕ) (hd1 : 1 ≤ d) (hd2 : d ≤ 366) :
    ∃ k < numWindowCenters s, circDist (effDay d) (windowCenter s k) ≤ s / 2 := by
  have heb : 1 ≤ effDay d ∧ effDay d ≤ 365 := by unfold effDay; split <;> omega
  obtain ⟨he1, he2⟩ := heb
  generalize he : effDay d = e at he1 he2
  clear he hd1 hd2
  obtain ⟨k0, r, hdm, hr⟩ : ∃ k0 r, s * k0 + r = e - 1 ∧ r < s :=
    ⟨(e - 1) / s, (e - 1) % s, Nat.div_add_mod _ _, Nat.mod_lt _ hs⟩
  have hs2 : s ≤ 2 * (s / 2) + 1 := by omega
  have hn366 : 366 ≤ s * numWindowCenters s := numWindowCenters_mul_ge s hs
  have hk0n : k0 < numWindowCenters s := by
    have h1 : s * k0 < s * numWindowCenters s := by omega
    exact Nat.lt_of_mul_lt_mul_left h1
  have hcm0 : k0 * s = s * k0 := Nat.mul_comm k0 s
  by_cases hrh : r ≤ s / 2
  · refine ⟨k0, hk0n, ?_⟩
    have hc : windowCenter s k0 = 1 + k0 * s := by
      unfold windowCenter
      rw [if_neg (by omega)]
    rw [hc]
    exact circDist_le_of_le e (1 + k0 * s) (s / 2) (by omega) (by omega) (by omega)
  · have hcm1 : (k0 + 1) * s = s * k0 + s := by
      rw [Nat.mul_comm]
      exact Nat.mul_succ s k0
    by_cases hk1 : k0 + 1 < numWindowCenters s
    · have hlast : s * (numWindowCenters s - 1) < 366 := numWindowCenters_pred_mul_lt s hs
      have hle : s * (k0 + 1) ≤ s * (numWindowCenters s - 1) :=
        Nat.mul_le_mul_left s (by omega)
      have hcm2 : s * (k0 + 1) = s * k0 + s := Nat.mul_succ s k0
      by_cases hc366 : 1 + (k0 + 1) * s = 366
      · refine ⟨k0 + 1, hk1, ?_⟩
        have hc : windowCenter s (k0 + 1) = 365 := by
          unfold windowCenter
          rw [if_pos hc366]
        rw [hc]
        exact circDist_le_of_ge e 365 (s / 2) (by omega) (by omega) (by omega)
      · refine ⟨k0 + 1, hk1, ?_⟩
        have hc : windowCenter s (k0 + 1) = 1 + (k0 + 1) * s := by
          unfold windowCenter
          rw [if_neg hc366]
        rw [hc]
        exact circDist_le_of_ge e (1 + (k0 + 1) * s) (s / 2) (by omega) (by omega) (by omega)
    · have hk0 : k0 = numWindowCenters s - 1 := by omega
      have hsub : s * k0 = s * (numWindowCenters s - 1) := by rw [hk0]
      have hsn : s * (numWindowCenters s - 1) + s = s * numWindowCenters s := by
        have h4 : numWindowCenters s - 1 + 1 = numWindowCenters s := by omega
        calc s * (numWindowCenters s - 1) + s = s * (numWindowCenters s - 1 + 1) :=
              (Nat.mul_succ s _).symm
          _ = s * numWindowCenters s := by rw [h4]
      refine ⟨0, by omega, ?_⟩
      have hc : windowCenter s 0 = 1 := by
        unfold windowCenter
        rw [if_neg (by omega)]
        omega
      rw [hc]
      exact circDist_le_wrap e 1 (s / 2) (by omega) (by omega) (by omega)

/-- Every day-of-year label in 1..366 has a window center whose step-wide
window contains it. -/
theorem exists_center_mem (s : ℕ) (hs : 1 ≤ s) (d : ℕ) (hd1 : 1 ≤ d) (hd2 : d ≤ 366) :
    ∃ c ∈ windowCenters s, circDist (effDay d) c ≤ s / 2 := by
  obtain ⟨k, hk, hdist⟩ := exists_center_near s hs d hd1 hd2
  exact ⟨windowCenter s k, List.mem_map_of_mem _ (List.mem_range.mpr hk), hdist⟩

/-- The target sets produced by the running-window iteration are pairwise
disjoint and duplicate-free, and avoid every index already marked used. -/
theorem useAux_flat_nodup (days : List ℕ) (s : ℕ) :
    ∀ (cs used : List ℕ),
      ((RunningWindow.useAux days s cs used).flatMap Prod.snd).Nodup ∧
      ∀ i ∈ (RunningWindow.useAux days s cs used).flatMap Prod.snd, i ∉ used := by
  intro cs
  induction cs with
  | nil =>
      intro used
      simp [RunningWindow.useAux]
  | cons c cs ih =>
      intro used
      simp only [RunningWindow.useAux, List.flatMap_cons]
      obtain ⟨ihn, ihm⟩ :=
        ih (used ++ (getIndicesValsInWindow days s c).filter (fun i => decide (i ∉ used)))
      constructor
      · rw [List.nodup_append]
        refine ⟨?_, ihn, ?_⟩
        · exact ((List.nodup_range _).filter _).filter _
        · intro a ha har
          exact (ihm a har) (List.mem_append_right _ ha)
      · intro i hi
        rcases List.mem_append.mp hi with h | h
        · have hmem := List.mem_filter.mp h
          simpa using hmem.2
        · intro hiu
          exact (ihm i h) (List.mem_append_left _ hiu)

/-- Any index whose day label is covered by one of the remaining window
centers ends up either already used or in some target set of the iteration. -/
theorem useAux_coverage (days : List ℕ) (s : ℕ) :
    ∀ (cs used : List ℕ) (i : ℕ), i < days.length →
      (∃ c ∈ cs, circDist (effDay (days.getD i 0)) c ≤ s / 2) →
      i ∈ used ∨ i ∈ (RunningWindow.useAux days s cs used).flatMap Prod.snd := by
  intro cs
  induction cs with
  | nil =>
      intro used i _ hex
      obtain ⟨c, hc, _⟩ := hex
      simp at hc
  | cons c cs ih =>
      intro used i hilen hex
      by_cases hiu : i ∈ used
      · exact Or.inl hiu
      · refine Or.inr ?_
        simp only [RunningWindow.useAux, List.flatMap_cons, List.mem_append]
        by_cases hic : circDist (effDay (days.getD i 0)) c ≤ s / 2
        · left
          apply List.mem_filter.mpr
          refine ⟨?_, by simpa using hiu⟩
          apply List.mem_filter.mpr
          exact ⟨List.mem_range.mpr hilen, by simpa using hic⟩
        · obtain ⟨c', hc', hd'⟩ := hex
          rcases List.mem_cons.mp hc' with rfl | hmem
          · exact absurd hd' hic
          · rcases ih _ i hilen ⟨c', hmem, hd'⟩ with h | h
            · rcases List.mem_append.mp h with h | h
              · exact absurd h hiu
              · exact Or.inl h
            · exact Or.inr h

/-- C2: in ECDFM running-window mode with a validated configuration, across
the whole iteration over (window_center, target_indices) pairs keyed off
the calendar of cm_future, the concatenation of all target sets contains every
index of the series exactly once: every index belongs to at least one target
set (range subset) and none belongs to two (Nodup), so every element of the
output is written exactly once even when its donor window qualifies it under
multiple windows. -/
theorem ecdfm_running_window_partition (t : ℚ) (b : Bool) (L S : ℤ) (cfg : ECDFMConfig)
    (hmk : ECDFM.mk_validated t b L S = .ok cfg)
    (days : List ℕ) (hdays : ∀ d ∈ days, 1 ≤ d ∧ d ≤ 366) :
    ((RunningWindow.use days cfg.running_window_step_length).flatMap Prod.snd).Nodup ∧
    List.range days.length ⊆
      (RunningWindow.use days cfg.running_window_step_length).flatMap Prod.snd := by
  have hs : 1 ≤ cfg.running_window_step_length := by
    unfold ECDFM.mk_validated at hmk
    split at hmk
    · exact absurd hmk (by simp)
    · split at hmk
      case isTrue => exact absurd hmk (by simp)
      case isFalse h1 h2 =>
        have hcfg := Except.ok.inj hmk
        rw [← hcfg]
        simp only []
        omega
  constructor
  · exact (useAux_flat_nodup days _ (windowCenters _) []).1
  · intro i hi
    rw [List.mem_range] at hi
    have hdmem : days.getD i 0 ∈ days := by
      rw [List.getD_eq_getElem?_getD, List.getElem?_eq_getElem hi]
      exact List.getElem_mem hi
    have hd := hdays _ hdmem
    have hex := exists_center_mem _ hs (days.getD i 0) hd.1 hd.2
    rcases useAux_coverage days _ (windowCenters _) [] i hi hex with h | h
    · simp at h
    · exact h

/-- Witness for C2 at a concrete input. -/
theorem ecdfm_running_window_partition_witness :
    ((RunningWindow.use [1, 50, 366, 180] 31).flatMap Prod.snd).Nodup ∧
    List.range (List.length [1, 50, 366, 180]) ⊆
      (RunningWindow.use [1, 50, 366, 180] 31).flatMap Prod.snd :=
  ecdfm_running_window_partition (1/100) true 31 31 ⟨1/100, true, 31, 31⟩
    (by unfold ECDFM.mk_validated; norm_num; rfl)
    [1, 50, 366, 180] (by decide)

/-- Scattering values into an output list never changes its length. -/
theorem scatterWrite_length (idxs : List ℕ) :
    ∀ (out vals : List ℚ), (scatterWrite out idxs vals).length = out.length := by
  induction idxs with
  | nil =>
      intro out vals
      cases vals <;> rfl
  | cons i is ih =>
      intro out vals
      cases vals with
      | nil => rfl
      | cons v vs =>
          rw [scatterWrite, ih, List.length_set]

/-- Folding a length-preserving update over a list preserves the length of
the accumulator. -/
theorem length_foldl_preserved (f : List ℚ → (ℕ × List ℕ) → List ℚ)
    (hf : ∀ o p, (f o p).length = o.length) :
    ∀ (l : List (ℕ × List ℕ)) (out : List ℚ), (l.foldl f out).length = out.length := by
  intro l
  induction l with
  | nil =>
      intro out
      rfl
  | cons p ps ih =>
      intro out
      rw [List.foldl_cons, ih, hf]

/-- The running-window branch of ECDFM.apply_location returns a list of the
same length as cm_future. -/
theorem applyRunningWindow_length {P : Type} (m : Model P) (cfg : ECDFMConfig)
    (obs cm_hist cm_future : List ℚ) (dObs dCmHist dCmFuture : List ℕ) :
    (ECDFM.applyRunningWindow m cfg obs cm_hist cm_future dObs dCmHist dCmFuture).length =
      cm_future.length := by
  unfold ECDFM.applyRunningWindow
  rw [length_foldl_preserved _ (fun o p => scatterWrite_length _ o _), List.length_replicate]

/-- C6: whenever apply_location of either debiaser returns a result (any
detrending mode for QuantileMapping; ECDFM with running-window mode on or
off), the returned array has the same length as cm_future. -/
theorem apply_location_length {P : Type} (m : Model P) (qmcfg : QMConfig) (cfg : ECDFMConfig)
    (obs cm_hist cm_future : List ℚ) (t1 t2 t3 : Option TimeArr)
    (qout eout : List ℚ) (w : Bool)
    (hq : QuantileMapping.apply_location m qmcfg obs cm_hist cm_future = .ok qout)
    (he : ECDFM.apply_location m cfg obs cm_hist cm_future t1 t2 t3 = .ok (eout, w)) :
    qout.length = cm_future.length ∧ eout.length = cm_future.length := by
  constructor
  · unfold QuantileMapping.apply_location at hq
    split_ifs at hq <;>
      first
        | (simp only [Except.ok.injEq] at hq
           rw [← hq, List.length_map])
        | exact absurd hq (by simp)
  · unfold ECDFM.apply_location at he
    split at he
    · dsimp only at he
      split at he
      · exact absurd he (by simp)
      · simp only [Except.ok.injEq, Prod.mk.injEq] at he
        rw [← he.1, applyRunningWindow_length]
    · simp only [Except.ok.injEq, Prod.mk.injEq] at he
      rw [← he.1]
      unfold ECDFM.apply_on_within_year_window
      rw [List.length_map]

/-- Witness for C6 at a concrete input. -/
theorem apply_location_length_witness :
    List.length [(0 : ℚ)] = List.length [(0 : ℚ)] ∧
    List.length [(0 : ℚ)] = List.length [(0 : ℚ)] :=
  apply_location_length unitModel ⟨"additive"⟩ ⟨1/4, false, 31, 31⟩ [0] [0] [0]
    none none none [0] [0] false
    (by unfold QuantileMapping.apply_location QuantileMapping.standard_qm
          deltaMultiplicative mean unitModel
        norm_num)
    (by unfold ECDFM.apply_location ECDFM.apply_on_within_year_window
          threshold_cdf_vals unitModel
        norm_num)
